import Mathlib

/-!
Verification development for the ezynotify monitoring engine
(`ezynotify.py`): sentence splitting, word-level diffing (a faithful
model of Python `difflib.ndiff`), keyword tracking, message formatting,
and the per-resource processing cycle.

External effects are modelled explicitly:
* the fetcher, the notification transport and the record store are
  capabilities carried by an `Env`;
* each call to `datetime.now()` consumes one reading from a clock stream
  `clock : Nat → String`, threaded as a counter;
* Python exceptions raised by the store call are modelled with `Except`
  at the point where `main` would catch them.
-/

namespace Ezynotify

/-! ### Python string primitives -/

/-- Whitespace characters recognised by Python `str.strip` / `str.split` /
regex `\s` (ASCII range; the analysed texts contain no exotic Unicode
whitespace). -/
def pyIsSpace (c : Char) : Bool :=
  c = ' ' || c = '\t' || c = '\n' || c = '\r' || c = '\x0b' || c = '\x0c'

/-- Python `str.strip()`. -/
def pyStrip (s : String) : String :=
  String.mk (((s.data.dropWhile pyIsSpace).reverse.dropWhile pyIsSpace).reverse)

/-- Python `str.rstrip()`. -/
def pyRstrip (s : String) : String :=
  String.mk ((s.data.reverse.dropWhile pyIsSpace).reverse)

/-- Python `str.lower()` (ASCII case folding; the monitored pages and
keywords analysed here are ASCII). -/
def pyLower (s : String) : String :=
  String.mk (s.data.map Char.toLower)

/-- Python `str.startswith`. -/
def pyStartsWith (s pre : String) : Bool :=
  pre.data.isPrefixOf s.data

/-- Python `needle in haystack` substring containment. -/
def containsSub (hay needle : String) : Bool :=
  (List.range (hay.data.length + 1)).any
    (fun i => needle.data.isPrefixOf (hay.data.drop i))

/-- Python slice `s[:n]` on a string (by code point, as in Python). -/
def pySliceTo (s : String) (n : Nat) : String :=
  String.mk (s.data.take n)

/-- Python `str.split()` with no separator: split on whitespace runs,
dropping empty pieces. -/
def pySplit (s : String) : List String :=
  ((s.data.splitOnP pyIsSpace).filter (fun w => !w.isEmpty)).map String.mk

/-- Python `str.title()` applied to a word such as `"added"`: the first
cased character of each alphabetic run is uppercased, the rest lowercased. -/
def pyTitle (s : String) : String :=
  String.mk ((s.data.foldl
    (fun (st : Bool × List Char) c =>
      if c.isAlpha then
        (true, (if st.1 then c.toLower else c.toUpper) :: st.2)
      else (false, c :: st.2))
    (false, [])).2.reverse)

/-- Python `l[-n:]`. -/
def lastN (n : Nat) (l : List α) : List α :=
  l.drop (l.length - n)

/-! ### `split_sentences` (ezynotify.py line 86)

`re.split(r'(?<=[.!?])\s+', text)` cuts the text at every maximal
whitespace run whose immediately preceding character is `.`, `!` or `?`;
the pieces are stripped and empty ones dropped. -/

/-- A sentence-terminating character of the lookbehind class `[.!?]`. -/
def isTerminator (c : Char) : Bool := c = '.' || c = '!' || c = '?'

/-- One regex-split step: `acc` holds the current piece reversed; a cut
happens at a whitespace character whose predecessor (head of `acc`) is a
sentence terminator.  The regex consumes the whole whitespace run `\s+`;
here only the triggering character is dropped and the rest of the run
flows into the next piece, where `strip` removes it — after the stripping
and non-empty filtering of `splitSentences` the two formulations agree
(no character of the residual run can trigger a further cut, since its
predecessor is whitespace, not a terminator). -/
def sentenceCutAux (acc : List Char) : List Char → List (List Char)
  | [] => [acc.reverse]
  | c :: rest =>
    if pyIsSpace c && (match acc with
        | p :: _ => isTerminator p
        | [] => false) then
      acc.reverse :: sentenceCutAux [] rest
    else
      sentenceCutAux (c :: acc) rest

/-- Model of `split_sentences` from the source. -/
def splitSentences (text : String) : List String :=
  ((sentenceCutAux [] text.data).map (fun l => pyStrip (String.mk l))).filter
    (fun s => s ≠ "")

/-! ### difflib.SequenceMatcher

A faithful model of CPython `difflib.SequenceMatcher` (as used through
`difflib.ndiff` at ezynotify.py line 102), generic over the element type:
it is instantiated at `String` for the word-level diff and at `Char` for
the intraline similarity scoring inside `Differ._fancy_replace`. -/

section SeqMatcher

variable {α : Type} [DecidableEq α] [Inhabited α]

/-- A matching block `(i, j, size)`: `a[i:i+size] == b[j:j+size]`. -/
structure MBlock where
  i : Nat
  j : Nat
  size : Nat
deriving Repr, DecidableEq

/-- Model of `SequenceMatcher.__chain_b`: the index list of `x` in `b`, with junk
elements purged and, for `len(b) >= 200` (autojunk), "popular" elements
(more than `len(b)//100 + 1` occurrences) purged as well. -/
def smB2j (isjunk : α → Bool) (b : List α) (x : α) : List Nat :=
  if isjunk x then []
  else
    let idxs := (List.range b.length).filter (fun i => decide (b.get? i = some x))
    if b.length ≥ 200 ∧ idxs.length > b.length / 100 + 1 then [] else idxs

/-- The dynamic-programming phase of `find_longest_match`: `j2len j` is
the length of the longest junk-free match ending with `a[i-1]` and `b[j]`.
`i + 1 - k` equals Python's `i-k+1` (the chain length `k` never exceeds
`i + 1`); the lookup `j2len.get(j-1, 0)` at `j = 0` is Python's lookup of
key `-1`, always absent, hence the `j = 0` special case. -/
def flmCore (a : List α) (b2jf : α → List Nat) (alo ahi blo bhi : Nat) : MBlock :=
  ((List.range' alo (ahi - alo)).foldl
    (fun (st : (Nat → Nat) × MBlock) i =>
      ((b2jf (a.getD i default)).filter
          (fun j => decide (blo ≤ j) && decide (j < bhi))).foldl
        (fun (st2 : (Nat → Nat) × MBlock) j =>
          let k := (if j = 0 then 0 else st.1 (j - 1)) + 1
          ((fun jq => if jq = j then k else st2.1 jq),
           if k > st2.2.size then ⟨i + 1 - k, j + 1 - k, k⟩ else st2.2))
        ((fun _ => 0), st.2))
    ((fun _ => 0), ⟨alo, blo, 0⟩)).2

/-- One of the backward `while` extension loops of `find_longest_match`;
`want` selects the non-junk (`false`) or junk (`true`) variant.  Since the
probed elements come from `b`, membership in `bjunk` coincides with
`isjunk`.  The loop decreases `m.i` by one each step, so fuel `m.i`
always suffices. -/
def extendLo (a b : List α) (isjunk : α → Bool) (want : Bool)
    (alo blo : Nat) : Nat → MBlock → MBlock
  | 0, m => m
  | fuel + 1, m =>
    if alo < m.i && blo < m.j &&
        isjunk (b.getD (m.j - 1) default) = want &&
        decide (a.getD (m.i - 1) default = b.getD (m.j - 1) default) then
      extendLo a b isjunk want alo blo fuel ⟨m.i - 1, m.j - 1, m.size + 1⟩
    else m

/-- One of the forward `while` extension loops of `find_longest_match`;
each step moves `m.i + m.size` closer to `ahi`, so fuel `ahi` always
suffices. -/
def extendHi (a b : List α) (isjunk : α → Bool) (want : Bool)
    (ahi bhi : Nat) : Nat → MBlock → MBlock
  | 0, m => m
  | fuel + 1, m =>
    if m.i + m.size < ahi && m.j + m.size < bhi &&
        isjunk (b.getD (m.j + m.size) default) = want &&
        decide (a.getD (m.i + m.size) default = b.getD (m.j + m.size) default) then
      extendHi a b isjunk want ahi bhi fuel ⟨m.i, m.j, m.size + 1⟩
    else m

/-- Model of `SequenceMatcher.find_longest_match`. -/
def findLongestMatch (isjunk : α → Bool) (a b : List α)
    (alo ahi blo bhi : Nat) : MBlock :=
  let m0 := flmCore a (smB2j isjunk b) alo ahi blo bhi
  let m1 := extendLo a b isjunk false alo blo m0.i m0
  let m2 := extendHi a b isjunk false ahi bhi ahi m1
  let m3 := extendLo a b isjunk true alo blo m2.i m2
  extendHi a b isjunk true ahi bhi ahi m3

/-- Recursive core of `get_matching_blocks`.  CPython keeps a work queue
and sorts the collected blocks at the end; in-order recursion yields the
same sorted list directly.  The fuel passed by `getMatchingBlocks`
strictly exceeds the recursion depth (each sub-interval is strictly
smaller). -/
def gmbRec (isjunk : α → Bool) (a b : List α) :
    Nat → Nat → Nat → Nat → Nat → List MBlock
  | 0, _, _, _, _ => []
  | fuel + 1, alo, ahi, blo, bhi =>
    let m := findLongestMatch isjunk a b alo ahi blo bhi
    if m.size = 0 then []
    else
      (if alo < m.i ∧ blo < m.j then gmbRec isjunk a b fuel alo m.i blo m.j
       else [])
      ++ [m]
      ++ (if m.i + m.size < ahi ∧ m.j + m.size < bhi then
            gmbRec isjunk a b fuel (m.i + m.size) ahi (m.j + m.size) bhi
          else [])

/-- The adjacency-collapsing pass of `get_matching_blocks` (starting from
the sentinel `i1 = j1 = k1 = 0` exactly as CPython does). -/
def collapseAdjacent : MBlock → List MBlock → List MBlock
  | cur, [] => if cur.size ≠ 0 then [cur] else []
  | cur, m :: rest =>
    if cur.i + cur.size = m.i ∧ cur.j + cur.size = m.j then
      collapseAdjacent ⟨cur.i, cur.j, cur.size + m.size⟩ rest
    else
      (if cur.size ≠ 0 then [cur] else []) ++ collapseAdjacent m rest

/-- Model of `SequenceMatcher.get_matching_blocks`, dummy terminator included. -/
def getMatchingBlocks (isjunk : α → Bool) (a b : List α) : List MBlock :=
  collapseAdjacent ⟨0, 0, 0⟩
    (gmbRec isjunk a b (a.length + b.length + 1) 0 a.length 0 b.length)
    ++ [⟨a.length, b.length, 0⟩]

/-- An opcode `(tag, a1, a2, b1, b2)` of `get_opcodes`. -/
structure Opcode where
  tag : String
  a1 : Nat
  a2 : Nat
  b1 : Nat
  b2 : Nat
deriving Repr, DecidableEq

/-- The opcode-emitting loop of `get_opcodes`. -/
def opcodesFromBlocks : Nat → Nat → List MBlock → List Opcode
  | _, _, [] => []
  | i, j, m :: rest =>
    (if i < m.i ∧ j < m.j then [⟨"replace", i, m.i, j, m.j⟩]
     else if i < m.i then [⟨"delete", i, m.i, j, m.j⟩]
     else if j < m.j then [⟨"insert", i, m.i, j, m.j⟩]
     else [])
    ++ (if m.size ≠ 0 then [⟨"equal", m.i, m.i + m.size, m.j, m.j + m.size⟩]
        else [])
    ++ opcodesFromBlocks (m.i + m.size) (m.j + m.size) rest

/-- Model of `SequenceMatcher.get_opcodes`. -/
def getOpcodes (isjunk : α → Bool) (a b : List α) : List Opcode :=
  opcodesFromBlocks 0 0 (getMatchingBlocks isjunk a b)

/-- Model of `SequenceMatcher.ratio` / `difflib._calculate_ratio`: `2*M/T` when
`T` is non-zero, else `1.0`, kept as an exact fraction
`(numerator, denominator)`.  Python compares the same values as floats;
for the magnitudes arising here the comparisons coincide. -/
def simScore (isjunk : α → Bool) (a b : List α) : Nat × Nat :=
  if a.length + b.length = 0 then (1, 1)
  else (2 * (((getMatchingBlocks isjunk a b).map (fun m => m.size)).sum),
        a.length + b.length)

end SeqMatcher

/-- Strict comparison of two non-negative fractions (denominators are
always positive here) by cross-multiplication. -/
def ratioLt (x y : Nat × Nat) : Bool := x.1 * y.2 < y.1 * x.2

/-! ### difflib.Differ / difflib.ndiff

`ndiff(a, b)` is `Differ(linejunk=None, charjunk=IS_CHARACTER_JUNK).compare(a, b)`.
The word-level matcher therefore runs without junk, while the character
level similarity cruncher inside `_fancy_replace` treats spaces and tabs
as junk.  Diff lines are the literal strings the generator yields
(`"+ w"`, `"- w"`, `"  w"`, `"? tags\n"`). -/

/-- Model of `difflib.IS_CHARACTER_JUNK`. -/
def isCharJunk (c : Char) : Bool := c = ' ' || c = '\t'

/-- No junk at all (`linejunk=None` at the word level). -/
def noJunk (_ : String) : Bool := false

/-- Character-level `ratio()` between two candidate synch words, as used
by `_fancy_replace`.  CPython first checks the documented upper bounds
`real_quick_ratio()` and `quick_ratio()` against the running best; since
both are upper bounds of `ratio()`, the triple conjunction is equivalent
to comparing `ratio()` alone, which is what is modelled. -/
def charSim (x y : String) : Nat × Nat := simScore isCharJunk x.data y.data

/-- Model of `Differ._dump`. -/
def dumpTag (tag : String) (x : List String) (lo hi : Nat) : List String :=
  (List.range' lo (hi - lo)).map (fun i => tag ++ " " ++ x.getD i "")

/-- Model of `Differ._plain_replace`. -/
def plainReplace (a b : List String) (alo ahi blo bhi : Nat) : List String :=
  if bhi - blo < ahi - alo then
    dumpTag "+" b blo bhi ++ dumpTag "-" a alo ahi
  else
    dumpTag "-" a alo ahi ++ dumpTag "+" b blo bhi

/-- Model of `difflib._keep_original_ws`. -/
def keepOriginalWs (s tagS : String) : String :=
  String.mk (List.zipWith
    (fun c tc => if tc = ' ' && pyIsSpace c then c else tc) s.data tagS.data)

/-- The intraline tag strings built inside `_fancy_replace` from the
character-level opcodes of the synch pair. -/
def intralineTags (aelt belt : String) : String × String :=
  (getOpcodes isCharJunk aelt.data belt.data).foldl
    (fun (p : String × String) op =>
      let la := op.a2 - op.a1
      let lb := op.b2 - op.b1
      if op.tag = "replace" then
        (p.1 ++ String.mk (List.replicate la '^'),
         p.2 ++ String.mk (List.replicate lb '^'))
      else if op.tag = "delete" then
        (p.1 ++ String.mk (List.replicate la '-'), p.2)
      else if op.tag = "insert" then
        (p.1, p.2 ++ String.mk (List.replicate lb '+'))
      else
        (p.1 ++ String.mk (List.replicate la ' '),
         p.2 ++ String.mk (List.replicate lb ' ')))
    ("", "")

/-- Model of `Differ._qformat`. -/
def qformat (aelt belt : String) : List String :=
  let tags := intralineTags aelt belt
  let atags := pyRstrip (keepOriginalWs aelt tags.1)
  let btags := pyRstrip (keepOriginalWs belt tags.2)
  ["- " ++ aelt] ++ (if atags ≠ "" then ["? " ++ atags ++ "\n"] else [])
    ++ ["+ " ++ belt] ++ (if btags ≠ "" then ["? " ++ btags ++ "\n"] else [])

/-- The best-pair search loop of `_fancy_replace`: the running state is
`(best_ratio, best pair, first identical pair)`, starting from the `0.74`
threshold. -/
def fancyBestPair (a b : List String) (alo ahi blo bhi : Nat) :
    (Nat × Nat) × Option (Nat × Nat) × Option (Nat × Nat) :=
  (List.range' blo (bhi - blo)).foldl
    (fun st j =>
      (List.range' alo (ahi - alo)).foldl
        (fun (st2 : (Nat × Nat) × Option (Nat × Nat) × Option (Nat × Nat)) i =>
          let ai := a.getD i ""
          let bj := b.getD j ""
          if ai = bj then
            (st2.1, st2.2.1, if st2.2.2 = none then some (i, j) else st2.2.2)
          else
            let r := charSim ai bj
            if ratioLt st2.1 r then (r, some (i, j), st2.2.2) else st2)
        st)
    ((74, 100), none, none)

/-- Model of `Differ._fancy_replace` (with `_fancy_helper` inlined as `helper`);
the fuel passed by `ndiffWords` strictly exceeds the recursion depth,
which is bounded by the interval sizes. -/
def fancyReplaceF (a b : List String) :
    Nat → Nat → Nat → Nat → Nat → List String
  | 0, _, _, _, _ => []
  | fuel + 1, alo, ahi, blo, bhi =>
    let helper : Nat → Nat → Nat → Nat → List String := fun al ah bl bh =>
      if al < ah then
        if bl < bh then fancyReplaceF a b fuel al ah bl bh
        else dumpTag "-" a al ah
      else if bl < bh then dumpTag "+" b bl bh
      else []
    let sr := fancyBestPair a b alo ahi blo bhi
    if ratioLt sr.1 (3, 4) then
      match sr.2.2 with
      | none => plainReplace a b alo ahi blo bhi
      | some (ei, ej) =>
        helper alo ei blo ej ++ ["  " ++ a.getD ei ""]
          ++ helper (ei + 1) ahi (ej + 1) bhi
    else
      match sr.2.1 with
      | some (bi, bj) =>
        helper alo bi blo bj ++ qformat (a.getD bi "") (b.getD bj "")
          ++ helper (bi + 1) ahi (bj + 1) bhi
      | none => []

/-- Model of `difflib.ndiff` on the whitespace-split word lists of a sentence pair
(`Differ.compare`). -/
def ndiffWords (a b : List String) : List String :=
  (getOpcodes noJunk a b).flatMap (fun op =>
    if op.tag = "replace" then
      fancyReplaceF a b (a.length + b.length + 1) op.a1 op.a2 op.b1 op.b2
    else if op.tag = "delete" then dumpTag "-" a op.a1 op.a2
    else if op.tag = "insert" then dumpTag "+" b op.b1 op.b2
    else dumpTag " " a op.a1 op.a2)

/-! ### `get_diff` (ezynotify.py lines 90-139)

Each produced change record calls `datetime.now()` once; the clock stream
and a running counter model those calls. -/

/-- A Change record as built at ezynotify.py lines 132-137. -/
structure Change where
  change : String
  action : String
  context : String
  time : String
deriving Repr, DecidableEq

/-- The body of `get_diff`'s per-sentence-pair loop (lines 97-137):
compares one positionally-aligned sentence pair, returning the produced
changes and the advanced clock counter.  Note that `change_indices` are
indices into the ndiff line stream, and that the same indices are used
both to slice `new_words` and to decide which context words to bold,
exactly as the source does. -/
def getDiffSent (clock : Nat → String) (t : Nat) (oldSent newSent : String) :
    List Change × Nat :=
  if oldSent ≠ newSent then
    let old_words := pySplit oldSent
    let new_words := pySplit newSent
    let word_diff := ndiffWords old_words new_words
    let changed_words := (word_diff.filter
      (fun l => pyStartsWith l "+ ")).map (fun l => String.mk (l.data.drop 2))
    let change_indices := (word_diff.enum.filter
      (fun p => pyStartsWith p.2 "+ ")).map (fun p => p.1)
    if changed_words ≠ [] then
      let first_change := change_indices.foldl min (change_indices.headD 0)
      let last_change := change_indices.foldl max 0
      let context_start := max 0 (first_change - 2)
      let context_end := min new_words.length (last_change + 3)
      let context := (new_words.drop context_start).take
        (context_end - context_start)
      let bolded_context := context.enum.map (fun p =>
        if (p.1 + context_start) ∈ change_indices then
          "<b>" ++ p.2 ++ "</b>"
        else p.2)
      ([{ change := String.intercalate " " changed_words
          action := "added"
          context := String.intercalate " " bolded_context
          time := clock t }], t + 1)
    else ([], t)
  else ([], t)

/-- Model of `get_diff`: sentence-splits both texts, zips the sentence lists
positionally and accumulates the per-pair changes. -/
def getDiff (clock : Nat → String) (t : Nat) (oldText newText : String) :
    List Change × Nat :=
  ((splitSentences oldText).zip (splitSentences newText)).foldl
    (fun (acc : List Change × Nat) p =>
      let r := getDiffSent clock acc.2 p.1 p.2
      (acc.1 ++ r.1, r.2))
    ([], t)

/-! ### Message formatting (ezynotify.py lines 141-166, 219-232, 266-272) -/

/-- One `foundKeyword` entry `{"keyword": ..., "foundAt": ...}`. -/
structure FoundEntry where
  keyword : String
  foundAt : String
deriving Repr, DecidableEq

/-- One call to `send_telegram_notification(chat_id, message, is_update)`. -/
structure Notification where
  chatId : String
  message : String
  isUpdate : Bool
deriving Repr, DecidableEq

/-- The keyword-found message built at lines 221-231: singular form for
exactly one found keyword, bullet-list form otherwise; `timestamp` is the
value of the loop variable at that point. -/
def mkKeywordMessage (found_keywords : List String) (url timestamp : String) :
    String :=
  if found_keywords.length = 1 then
    "🔔 <b>Keyword Found!</b>\n\n<b>Keyword:</b> " ++ found_keywords.headD ""
      ++ "\n<b>URL:</b> " ++ url ++ "\n<b>Found at:</b> " ++ timestamp
  else
    "🔔 <b>Multiple Keywords Found!</b>\n\n<b>Keywords:</b>\n"
      ++ String.intercalate "\n" (found_keywords.map (fun kw => "• " ++ kw))
      ++ "\n\n<b>URL:</b> " ++ url ++ "\n<b>Found at:</b> " ++ timestamp

/-- The non-detailed update notice built at lines 269-272. -/
def mkShortUpdateMessage (url ts : String) : String :=
  "🔄 <b>Website Changes Detected</b>\n\n<b>URL:</b> " ++ url
    ++ "\n<b>Changes detected at:</b> " ++ ts
    ++ "\n\nℹ️ Detailed updates are available but not shown. Enable detailed updates to see them."

/-- The two lines `format_updates_message` appends per change record. -/
def renderChangeLine (c : Change) : String :=
  (if c.action = "added" then "🟢" else "🔴")
    ++ " <b>" ++ pyTitle c.action ++ ":</b> " ++ c.change ++ "\n"
    ++ (if c.context ≠ "" then "   <i>Context:</i> " ++ c.context ++ "\n" else "")

/-- The unbounded rendering of `format_updates_message` (lines 143-161),
before the length check. -/
def formatUpdatesMessageRaw (url : String)
    (updates new_detected_changes : List Change) : String :=
  let message := "🔄 <b>Website Changes Detected</b>\n\n<b>URL:</b> " ++ url
    ++ "\n\n"
  let message := if new_detected_changes ≠ [] then
      message ++ "<b>New Changes:</b>\n"
        ++ String.join (new_detected_changes.map renderChangeLine) ++ "\n"
    else message
  if updates ≠ [] then
    message ++ "<b>Previous Changes:</b>\n"
      ++ String.join ((lastN 5 updates).map renderChangeLine)
  else message

/-- The truncation marker appended at line 164. -/
def truncationMarker : String := "\n\n... (message truncated due to length)"

/-- Model of `format_updates_message` (lines 141-166), Telegram length cap
included. -/
def formatUpdatesMessage (url : String)
    (updates new_detected_changes : List Change) : String :=
  let message := formatUpdatesMessageRaw url updates new_detected_changes
  if message.length > 4096 then pySliceTo message 4000 ++ truncationMarker
  else message

/-! ### `process_row` (ezynotify.py lines 168-280)

A row as read from the store; `row.get("keywords") or {}` followed by
`.get("keywords", [])` is modelled by carrying the inner keyword list
directly, and a missing/`None` `telegramID` by the empty string (both are
falsy in the `if telegram_id` guards). -/

structure Row where
  id : Nat
  url : String
  keywords : List String
  reference : String
  foundKeyword : List FoundEntry
  updates : List Change
  telegramID : String
  shouldSendDetailedUpdates : Bool
  checkUpdates : Bool
  shouldContinueCheck : Bool
  completed : Bool
deriving Repr, DecidableEq

/-- The staged partial update (`update_data` dict): `none` fields are
absent from the dict. -/
structure UpdateData where
  reference : Option String := none
  keywords : Option (List String) := none
  foundKeyword : Option (List FoundEntry) := none
  completed : Option Bool := none
  isUpdated : Option Bool := none
  updates : Option (List Change) := none
deriving Repr, DecidableEq

/-- Python truthiness of the `update_data` dict. -/
def UpdateData.isEmpty (u : UpdateData) : Bool :=
  u.reference.isNone && u.keywords.isNone && u.foundKeyword.isNone &&
  u.completed.isNone && u.isUpdated.isNone && u.updates.isNone

/-- The external capabilities consumed by the engine: the rendered-text
fetcher (returning `""` on failure, as `get_text_from_url` does), the
stream of `datetime.now()` readings, and whether the store update call
raises for a given row id. -/
structure Env where
  fetch : String → String
  clock : Nat → String
  storeFails : Nat → Bool

/-- Model of `get_text_from_url`, which normalises the fetched page text to lower case
(line 77). -/
def getTextFromUrl (env : Env) (url : String) : String :=
  pyLower (env.fetch url)

/-- The mutable state of the keyword loop at lines 204-215: `timestamp`
is the Python local variable, holding the reading taken at the most
recent match. -/
structure KwState where
  newFound : List FoundEntry
  remaining : List String
  foundKws : List String
  timestamp : Option String
  time : Nat
deriving Repr, DecidableEq

/-- The keyword loop (lines 208-215): per matched keyword one
`datetime.now()` reading is taken, an entry is appended, the keyword is
removed from `remaining` (first occurrence, as `list.remove`). -/
def keywordLoop (clock : Nat → String) (newText : String) :
    KwState → List String → KwState
  | st, [] => st
  | st, kw :: rest =>
    if containsSub newText kw then
      let ts := clock st.time
      keywordLoop clock newText
        { newFound := st.newFound ++ [⟨kw, ts⟩]
          remaining := st.remaining.erase kw
          foundKws := st.foundKws ++ [kw]
          timestamp := some ts
          time := st.time + 1 } rest
    else keywordLoop clock newText st rest

/-- The keyword section of `process_row` (lines 203-243): runs the loop,
sends the keyword-found notification when a recipient is configured and
something was found, stages `keywords`/`foundKeyword`, and stages
`completed` when the pending set emptied and `shouldContinueCheck` is
false.  (Line 205 recomputes the lowered keyword list; it equals
`keyword_list`.) -/
def keywordSection (env : Env) (row : Row) (newText : String)
    (ud : UpdateData) (t : Nat) : UpdateData × List Notification × Nat :=
  let keyword_list := row.keywords.map pyLower
  if keyword_list ≠ [] then
    let st := keywordLoop env.clock newText
      ⟨[], keyword_list, [], none, t⟩ keyword_list
    let notifs := if row.telegramID ≠ "" ∧ st.foundKws ≠ [] then
        [⟨row.telegramID,
          mkKeywordMessage st.foundKws row.url (st.timestamp.getD ""), false⟩]
      else []
    let ud := { ud with keywords := some st.remaining
                        foundKeyword := some (row.foundKeyword ++ st.newFound) }
    let ud := if st.remaining = [] ∧ row.shouldContinueCheck = false then
        { ud with completed := some true }
      else ud
    (ud, notifs, st.time)
  else (ud, [], t)

/-- The updates section of `process_row` (lines 246-275): diffing runs
only when the stripped previous reference is truthy and the new text
differs; `Updates` is extended only when the diff is non-empty, but
`isUpdated`/`Updates` are staged whenever the branch runs; the
non-detailed notification takes one extra `datetime.now()` reading. -/
def updatesSection (env : Env) (row : Row) (newText : String)
    (ud : UpdateData) (t : Nat) : UpdateData × List Notification × Nat :=
  if row.checkUpdates = true then
    if pyStrip row.reference ≠ "" ∧ newText ≠ row.reference then
      let r := getDiff env.clock t row.reference newText
      let text_diffs := r.1
      let new_detected_changes := if text_diffs ≠ [] then text_diffs else []
      let updates_log := if text_diffs ≠ [] then row.updates ++ text_diffs
        else row.updates
      let ud := { ud with isUpdated := some true, updates := some updates_log }
      if row.telegramID ≠ "" then
        if row.shouldSendDetailedUpdates = true then
          (ud, [⟨row.telegramID,
            formatUpdatesMessage row.url updates_log new_detected_changes,
            true⟩], r.2)
        else
          (ud, [⟨row.telegramID,
            mkShortUpdateMessage row.url (env.clock r.2), true⟩], r.2 + 1)
      else (ud, [], r.2)
    else (ud, [], t)
  else (ud, [], t)

/-- The observable outcome of one `process_row` call: the URLs fetched,
the notification calls made, the staged store write (if any), and the
final clock counter. -/
structure ProcOut where
  fetched : List String
  notifs : List Notification
  write : Option UpdateData
  time : Nat
deriving Repr, DecidableEq

/-- Model of `process_row` (lines 168-280): skip when completed; skip when there
are no keywords and `checkUpdates` is false; otherwise fetch, stage the
reference replacement when the text changed, run the keyword section,
run the updates section, and push `update_data` iff it is non-empty. -/
def processRow (env : Env) (t0 : Nat) (row : Row) : ProcOut :=
  if row.completed = true then ⟨[], [], none, t0⟩
  else if row.keywords.map pyLower = [] ∧ row.checkUpdates = false then
    ⟨[], [], none, t0⟩
  else
    let new_text := getTextFromUrl env row.url
    let ud1 : UpdateData := if new_text ≠ row.reference then
        { reference := some new_text }
      else {}
    let k := keywordSection env row new_text ud1 t0
    let u := updatesSection env row new_text k.1 k.2.2
    ⟨[row.url], k.2.1 ++ u.2.1,
     if u.1.isEmpty then none else some u.1, u.2.2⟩

/-! ### `main` (ezynotify.py lines 282-300)

`process_row` has no exception handler; the only uncaught failure point
inside it is the store update call at line 279.  `main` wraps the whole
row loop in a single `try`, so a raised store error ends the loop: the
failing row's fetch and notifications have already happened, its write is
lost, and no later row is processed. -/

/-- The observable outcome of one cycle over a row list. -/
structure RunOut where
  fetched : List String
  notifs : List Notification
  writes : List (Nat × UpdateData)
  aborted : Bool
deriving Repr, DecidableEq

/-- The row loop of `main` under its enclosing `try`/`except`. -/
def runRows (env : Env) : Nat → List Row → RunOut
  | _, [] => ⟨[], [], [], false⟩
  | t, row :: rest =>
    let out := processRow env t row
    if out.write.isSome && env.storeFails row.id then
      ⟨out.fetched, out.notifs, [], true⟩
    else
      let tail := runRows env out.time rest
      ⟨out.fetched ++ tail.fetched, out.notifs ++ tail.notifs,
       (match out.write with
        | some u => [(row.id, u)]
        | none => []) ++ tail.writes,
       tail.aborted⟩

/-- Model of `main`: fetch all rows, then run the loop from clock counter 0. -/
def runMain (env : Env) (rows : List Row) : RunOut :=
  runRows env 0 rows

/-! ### Derived notions used by the claim statements -/

/-- The keywords of a row that occur (case-folded) in the newly fetched
text, in keyword-list order: exactly the keywords the loop at lines
208-215 matches. -/
def matchedKeywords (env : Env) (row : Row) : List String :=
  (row.keywords.map pyLower).filter
    (fun kw => containsSub (getTextFromUrl env row.url) kw)

/-- The found-entries produced for a matched keyword list when the first
match consumes clock reading `t`: the `k`-th matched keyword is stamped
with reading `t + k`. -/
def stampAll (clock : Nat → String) : Nat → List String → List FoundEntry
  | _, [] => []
  | t, kw :: ks => ⟨kw, clock t⟩ :: stampAll clock (t + 1) ks

/-- A fixed demonstration clock stream. -/
def demoClock : Nat → String := fun n => "2025-01-01 00:00:0" ++ toString n

/-! ### Helper lemmas -/

lemma pyStrip_empty : pyStrip "" = "" := rfl

lemma keywordLoop_none (clock : Nat → String) (text : String) :
    ∀ (ks : List String), (∀ kw ∈ ks, containsSub text kw = false) →
      ∀ st, keywordLoop clock text st ks = st := by
  intro ks
  induction ks with
  | nil => intro _ st; rfl
  | cons kw rest ih =>
    intro h st
    have hkw : containsSub text kw = false := h kw (by simp)
    simp only [keywordLoop, hkw, Bool.false_eq_true, if_false]
    exact ih (fun k hk => h k (by simp [hk])) st

lemma keywordLoop_spec (clock : Nat → String) (text : String) :
    ∀ (ks : List String) (st : KwState),
      keywordLoop clock text st ks =
        ⟨st.newFound ++
            stampAll clock st.time (ks.filter (fun kw => containsSub text kw)),
         (ks.filter (fun kw => containsSub text kw)).foldl
            (fun r kw => r.erase kw) st.remaining,
         st.foundKws ++ ks.filter (fun kw => containsSub text kw),
         (if ks.filter (fun kw => containsSub text kw) = [] then st.timestamp
          else some (clock (st.time +
            (ks.filter (fun kw => containsSub text kw)).length - 1))),
         st.time + (ks.filter (fun kw => containsSub text kw)).length⟩ := by
  intro ks
  induction ks with
  | nil => intro st; simp [keywordLoop, stampAll]
  | cons kw rest ih =>
    intro st
    by_cases h : containsSub text kw = true
    · have hf : List.filter (fun k => containsSub text k) (kw :: rest)
          = kw :: List.filter (fun k => containsSub text k) rest := by
        simp [h]
      simp only [keywordLoop, h, if_true, hf]
      rw [ih]
      simp only [KwState.mk.injEq]
      refine ⟨by simp [stampAll], rfl, by simp, ?_, by simp; omega⟩
      by_cases hrest : List.filter (fun k => containsSub text k) rest = []
      · simp [hrest]
      · have hlen : 0 < (List.filter (fun k => containsSub text k) rest).length :=
          List.length_pos.mpr hrest
        simp only [hrest, if_false, List.length_cons]
        congr 2
        omega
    · have h' : containsSub text kw = false := by
        cases hc : containsSub text kw
        · rfl
        · exact absurd hc h
      have hf : List.filter (fun k => containsSub text k) (kw :: rest)
          = List.filter (fun k => containsSub text k) rest := by
        simp [h']
      simp only [keywordLoop, h', Bool.false_eq_true, if_false, hf]
      exact ih st

lemma stampAll_map_foundAt (clock : Nat → String) :
    ∀ (ks : List String) (t : Nat),
      (stampAll clock t ks).map (fun e => e.foundAt)
        = (List.range ks.length).map (fun j => clock (t + j)) := by
  intro ks
  induction ks with
  | nil => intro t; simp [stampAll]
  | cons kw rest ih =>
    intro t
    simp only [stampAll, List.map_cons, List.length_cons,
      List.range_succ_eq_map, List.map_map, ih (t + 1)]
    congr 1
    apply List.map_congr_left
    intro a _
    simp only [Function.comp_apply]
    congr 1
    omega

lemma updatesSection_frame (env : Env) (row : Row) (nt : String)
    (ud : UpdateData) (t : Nat) :
    (updatesSection env row nt ud t).1.keywords = ud.keywords ∧
    (updatesSection env row nt ud t).1.foundKeyword = ud.foundKeyword ∧
    (updatesSection env row nt ud t).1.completed = ud.completed ∧
    (updatesSection env row nt ud t).1.reference = ud.reference := by
  unfold updatesSection
  repeat' split
  all_goals simp

lemma updatesSection_skip (env : Env) (row : Row) (nt : String)
    (ud : UpdateData) (t : Nat)
    (h : ¬(pyStrip row.reference ≠ "" ∧ nt ≠ row.reference)) :
    updatesSection env row nt ud t = (ud, [], t) := by
  by_cases hcu : row.checkUpdates = true
  · simp [updatesSection, hcu, h]
  · simp [updatesSection, hcu]

lemma updatesSection_isUpdated_gate (env : Env) (row : Row) (nt : String)
    (ud : UpdateData) (t : Nat) (hud : ud.isUpdated = none)
    (h : (updatesSection env row nt ud t).1.isUpdated = some true) :
    pyStrip row.reference ≠ "" ∧ nt ≠ row.reference := by
  by_cases hg : pyStrip row.reference ≠ "" ∧ nt ≠ row.reference
  · exact hg
  · rw [updatesSection_skip env row nt ud t hg] at h
    rw [hud] at h
    exact absurd h (by simp)

lemma updatesSection_notifs (env : Env) (row : Row) (nt : String)
    (ud : UpdateData) (t : Nat) :
    ∀ n ∈ (updatesSection env row nt ud t).2.1, n.isUpdate = true := by
  unfold updatesSection
  repeat' split
  all_goals simp

lemma keywordSection_frame (env : Env) (row : Row) (nt : String)
    (ud : UpdateData) (t : Nat) :
    (keywordSection env row nt ud t).1.isUpdated = ud.isUpdated ∧
    (keywordSection env row nt ud t).1.updates = ud.updates ∧
    (keywordSection env row nt ud t).1.reference = ud.reference := by
  unfold keywordSection
  dsimp only
  repeat' split
  all_goals simp

lemma keywordSection_notifs (env : Env) (row : Row) (nt : String)
    (ud : UpdateData) (t : Nat) :
    ∀ n ∈ (keywordSection env row nt ud t).2.1, n.isUpdate = false := by
  unfold keywordSection
  dsimp only
  repeat' split
  all_goals simp

lemma isEmpty_false_of_keywords (u : UpdateData)
    (h : u.keywords.isSome = true) : u.isEmpty = false := by
  cases hk : u.keywords with
  | none => rw [hk] at h; exact absurd h (by simp)
  | some l => simp [UpdateData.isEmpty, hk]

lemma processRow_main (env : Env) (t : Nat) (row : Row)
    (hC : row.completed = false)
    (hS : ¬(row.keywords.map pyLower = [] ∧ row.checkUpdates = false)) :
    processRow env t row =
      (let new_text := getTextFromUrl env row.url
       let ud1 : UpdateData := if new_text ≠ row.reference then
           { reference := some new_text }
         else {}
       let k := keywordSection env row new_text ud1 t
       let u := updatesSection env row new_text k.1 k.2.2
       ⟨[row.url], k.2.1 ++ u.2.1,
        if u.1.isEmpty then none else some u.1, u.2.2⟩) := by
  unfold processRow
  rw [if_neg (by simp [hC]), if_neg hS]

lemma ud1_fields (c : Prop) [Decidable c] (x : String) :
    (if c then ({ reference := some x } : UpdateData) else {}).updates = none ∧
    (if c then ({ reference := some x } : UpdateData) else {}).isUpdated = none ∧
    (if c then ({ reference := some x } : UpdateData) else {}).completed = none ∧
    (if c then ({ reference := some x } : UpdateData) else {}).keywords = none := by
  split <;> simp

lemma keywordSection_completed (env : Env) (row : Row) (nt : String)
    (ud : UpdateData) (t : Nat) (hc0 : ud.completed = none) :
    (keywordSection env row nt ud t).1.completed = none ∨
    ((keywordSection env row nt ud t).1.completed = some true ∧
     (keywordSection env row nt ud t).1.keywords = some [] ∧
     row.shouldContinueCheck = false) := by
  unfold keywordSection
  dsimp only
  split
  · split
    case isTrue h => exact Or.inr ⟨rfl, by simp [h.1], h.2⟩
    case isFalse h => exact Or.inl (by simpa using hc0)
  · exact Or.inl (by simpa using hc0)

lemma keywordSection_none (env : Env) (row : Row) (nt : String)
    (ud : UpdateData) (t : Nat)
    (hk : row.keywords.map pyLower ≠ [])
    (h : ∀ kw ∈ row.keywords.map pyLower, containsSub nt kw = false) :
    keywordSection env row nt ud t =
      ({ ud with keywords := some (row.keywords.map pyLower),
                 foundKeyword := some row.foundKeyword }, [], t) := by
  unfold keywordSection
  dsimp only
  rw [if_pos hk, keywordLoop_none env.clock nt (row.keywords.map pyLower) h]
  simp [hk]

lemma keywordSection_staged (env : Env) (row : Row) (nt : String)
    (ud : UpdateData) (t : Nat) (hk : row.keywords.map pyLower ≠ []) :
    (keywordSection env row nt ud t).1.keywords.isSome = true ∧
    (keywordSection env row nt ud t).1.foundKeyword.isSome = true := by
  unfold keywordSection
  dsimp only
  rw [if_pos hk]
  split
  all_goals simp

lemma keywordSection_found (env : Env) (row : Row) (nt : String)
    (ud : UpdateData) (t : Nat)
    (hm : (row.keywords.map pyLower).filter
      (fun kw => containsSub nt kw) ≠ [])
    (hT : row.telegramID ≠ "") :
    (keywordSection env row nt ud t).1.foundKeyword
      = some (row.foundKeyword ++ stampAll env.clock t
          ((row.keywords.map pyLower).filter (fun kw => containsSub nt kw))) ∧
    (keywordSection env row nt ud t).1.keywords.isSome = true ∧
    (keywordSection env row nt ud t).2.1
      = [⟨row.telegramID,
          mkKeywordMessage
            ((row.keywords.map pyLower).filter (fun kw => containsSub nt kw))
            row.url
            (env.clock (t +
              ((row.keywords.map pyLower).filter
                (fun kw => containsSub nt kw)).length - 1)),
          false⟩] := by
  have hk : row.keywords.map pyLower ≠ [] := by
    intro h0
    rw [h0] at hm
    exact hm rfl
  unfold keywordSection
  dsimp only
  rw [if_pos hk, keywordLoop_spec env.clock nt (row.keywords.map pyLower)]
  dsimp only
  rw [if_neg hm]
  split
  all_goals simp [hm, hT]

lemma zip_self_eq_map {α : Type} (l : List α) :
    l.zip l = l.map (fun a => (a, a)) := by
  induction l with
  | nil => rfl
  | cons x xs ih => simp [ih]

lemma getDiffSent_self (clock : Nat → String) (t : Nat) (s : String) :
    getDiffSent clock t s s = ([], t) := by
  simp [getDiffSent]

lemma getDiff_selfPairs (clock : Nat → String) (l : List String) :
    ∀ acc : List Change × Nat,
      (l.map (fun s => (s, s))).foldl
        (fun (acc : List Change × Nat) p =>
          let r := getDiffSent clock acc.2 p.1 p.2
          (acc.1 ++ r.1, r.2)) acc = acc := by
  induction l with
  | nil => intro acc; rfl
  | cons x xs ih =>
    intro acc
    simp only [List.map_cons, List.foldl_cons, getDiffSent_self, List.append_nil]
    exact ih acc

lemma processRow_no_diff (env : Env) (t : Nat) (row : Row)
    (hC : row.completed = false) (hB : pyStrip row.reference = "") :
    (∀ u, (processRow env t row).write = some u →
      u.updates = none ∧ u.isUpdated = none) ∧
    (∀ n ∈ (processRow env t row).notifs, n.isUpdate = false) := by
  by_cases hS : row.keywords.map pyLower = [] ∧ row.checkUpdates = false
  · unfold processRow
    rw [if_neg (by simp [hC]), if_pos hS]
    simp
  · rw [processRow_main env t row hC hS]
    dsimp only
    set nt := getTextFromUrl env row.url with hnt
    set ud1 : UpdateData :=
      (if nt ≠ row.reference then { reference := some nt } else {}) with hud1
    rw [updatesSection_skip env row nt (keywordSection env row nt ud1 t).1
      (keywordSection env row nt ud1 t).2.2 (fun hcon => hcon.1 hB)]
    dsimp only
    constructor
    · intro u hw
      split at hw
      · exact absurd hw (by simp)
      · have hu : (keywordSection env row nt ud1 t).1 = u := Option.some.inj hw
        have hfr := keywordSection_frame env row nt ud1 t
        have hf1 := ud1_fields (nt ≠ row.reference) nt
        rw [← hud1] at hf1
        rw [← hu]
        exact ⟨by rw [hfr.2.1]; exact hf1.1, by rw [hfr.1]; exact hf1.2.1⟩
    · intro n hn
      rw [List.append_nil] at hn
      exact keywordSection_notifs env row nt ud1 t n hn

/-! ### C5 -/

/-- C5: for every text `T`, diffing `T` against itself produces the empty
Change sequence (`get_diff` skips every positionally-paired sentence,
since each pair is equal). -/
theorem C5_diff_self_empty (clock : Nat → String) (t : Nat) (T : String) :
    getDiff clock t T T = ([], t) := by
  unfold getDiff
  rw [zip_self_eq_map]
  exact getDiff_selfPairs clock (splitSentences T) ([], t)

/-! ### C1 -/

/-- C1: evaluating `get_diff` at the spec's own example (old sentence
"the price is 10 dollars.", new sentence "the price is 15 dollars now.").
The code collects inserted tokens `["15", "dollars", "now."]` (not
`{"15", "now."}`), and — because `change_indices` are indices into the
ndiff line stream rather than into `new_words` — renders the context
"is 15 <b>dollars</b> now.": the window does not reach back to "price",
the unchanged token "dollars" is the only one emphasised, and neither
inserted token "15" nor "now." is wrapped.  This contradicts the claimed
window `new_words[max(0,firstChange-2) : min(len,lastChange+3)]` with
exactly the inserted tokens marked. -/
theorem C1_context_window_eval :
    getDiff demoClock 0 "the price is 10 dollars." "the price is 15 dollars now."
      = ([⟨"15 dollars now.", "added", "is 15 <b>dollars</b> now.",
           demoClock 0⟩], 1) ∧
    containsSub "is 15 <b>dollars</b> now." "price" = false ∧
    containsSub "is 15 <b>dollars</b> now." "<b>15</b>" = false ∧
    containsSub "is 15 <b>dollars</b> now." "<b>now.</b>" = false := by
  decide

/-! ### C4 -/

/-- C4: a completed row is skipped entirely — no fetch, no notification,
no write, no clock use; and whenever a cycle stages the `completed` flag,
the staged value is `true`, the staged pending keyword list is empty, and
`shouldContinueCheck` is false (so `completed` never reverts to false and
is staged only when the pending set emptied with continuation disabled). -/
theorem C4_completed_monotonic :
    ∀ (env : Env) (t : Nat) (row : Row),
      (row.completed = true → processRow env t row = ⟨[], [], none, t⟩) ∧
      (∀ (u : UpdateData) (b : Bool),
        (processRow env t row).write = some u → u.completed = some b →
        b = true ∧ u.keywords = some [] ∧ row.shouldContinueCheck = false) := by
  intro env t row
  constructor
  · intro h
    unfold processRow
    rw [if_pos h]
  · intro u b hw hc
    by_cases hC : row.completed = true
    · unfold processRow at hw
      rw [if_pos hC] at hw
      exact absurd hw (by simp)
    · have hC' : row.completed = false := by
        cases hcc : row.completed
        · rfl
        · exact absurd hcc hC
      by_cases hS : row.keywords.map pyLower = [] ∧ row.checkUpdates = false
      · unfold processRow at hw
        rw [if_neg (by simp [hC']), if_pos hS] at hw
        exact absurd hw (by simp)
      · rw [processRow_main env t row hC' hS] at hw
        dsimp only at hw
        set nt := getTextFromUrl env row.url with hnt
        set ud1 : UpdateData :=
          (if nt ≠ row.reference then { reference := some nt } else {}) with hud1
        split at hw
        · exact absurd hw (by simp)
        · have hu : (updatesSection env row nt (keywordSection env row nt ud1 t).1
              (keywordSection env row nt ud1 t).2.2).1 = u := Option.some.inj hw
          have hfr := updatesSection_frame env row nt
            (keywordSection env row nt ud1 t).1 (keywordSection env row nt ud1 t).2.2
          have hf1 := ud1_fields (nt ≠ row.reference) nt
          rw [← hud1] at hf1
          rcases keywordSection_completed env row nt ud1 t hf1.2.2.1 with hnone | hsome
          · exfalso
            rw [← hu, hfr.2.2.1, hnone] at hc
            exact absurd hc (by simp)
          · rw [← hu, hfr.2.2.1, hsome.1] at hc
            have hb : b = true := by
              have := Option.some.inj hc
              exact this.symm
            refine ⟨hb, ?_, hsome.2.2⟩
            rw [← hu, hfr.1]
            exact hsome.2.1

/-! ### C6 -/

/-- C6: if no (case-folded) keyword of the pending set occurs as a
substring of the fetched text, the cycle stages the pending keyword list
unchanged and the found-keyword log unchanged, and sends no keyword-found
notification (every notification sent is an update notification). -/
theorem C6_no_keyword_match_leaves_state :
    ∀ (env : Env) (t : Nat) (row : Row),
      row.completed = false → row.keywords ≠ [] →
      row.keywords.map pyLower = row.keywords →
      (∀ kw ∈ row.keywords, containsSub (getTextFromUrl env row.url) kw = false) →
      ∃ u, (processRow env t row).write = some u ∧
        u.keywords = some row.keywords ∧
        u.foundKeyword = some row.foundKeyword ∧
        (∀ n ∈ (processRow env t row).notifs, n.isUpdate = true) := by
  intro env t row hC hne hMap hNo
  have hS : ¬(row.keywords.map pyLower = [] ∧ row.checkUpdates = false) := by
    intro hcon
    rw [hMap] at hcon
    exact hne hcon.1
  rw [processRow_main env t row hC hS]
  dsimp only
  set nt := getTextFromUrl env row.url with hnt
  set ud1 : UpdateData :=
    (if nt ≠ row.reference then { reference := some nt } else {}) with hud1
  have hkeys := keywordSection_none env row nt ud1 t
    (by rw [hMap]; exact hne) (by rw [hMap, hnt]; exact hNo)
  rw [hkeys]
  dsimp only
  have hfr := updatesSection_frame env row nt
    ({ ud1 with keywords := some (row.keywords.map pyLower),
                foundKeyword := some row.foundKeyword }) t
  refine ⟨(updatesSection env row nt
    ({ ud1 with keywords := some (row.keywords.map pyLower),
                foundKeyword := some row.foundKeyword }) t).1, ?_, ?_, ?_, ?_⟩
  · rw [if_neg]
    rw [isEmpty_false_of_keywords]
    · simp
    · rw [hfr.1]
      simp
  · rw [hfr.1, hMap]
  · rw [hfr.2.1]
  · intro n hn
    rw [List.nil_append] at hn
    exact updatesSection_notifs env row nt _ t n hn

/-! ### C7 -/

/-- C7: for a resource with `checkUpdates = true` and an empty stored
reference (no baseline), the cycle stages neither `Updates` nor
`isUpdated` and sends no update notification, whatever the fetched text;
and in general the diff branch runs (staging `isUpdated = true`) only
when the previous reference was non-empty and differs from the new
text. -/
theorem C7_empty_reference_no_changes :
    (∀ (env : Env) (t : Nat) (row : Row),
      row.completed = false → row.checkUpdates = true → row.reference = "" →
      (∀ u, (processRow env t row).write = some u →
        u.updates = none ∧ u.isUpdated = none) ∧
      (∀ n ∈ (processRow env t row).notifs, n.isUpdate = false)) ∧
    (∀ (env : Env) (t : Nat) (row : Row) (u : UpdateData),
      (processRow env t row).write = some u → u.isUpdated = some true →
      row.reference ≠ "" ∧ getTextFromUrl env row.url ≠ row.reference) := by
  constructor
  · intro env t row hC _ hRef
    exact processRow_no_diff env t row hC (by simp [hRef, pyStrip_empty])
  · intro env t row u hw hiu
    by_cases hC : row.completed = true
    · unfold processRow at hw
      rw [if_pos hC] at hw
      exact absurd hw (by simp)
    · have hC' : row.completed = false := by
        cases hcc : row.completed
        · rfl
        · exact absurd hcc hC
      by_cases hS : row.keywords.map pyLower = [] ∧ row.checkUpdates = false
      · unfold processRow at hw
        rw [if_neg (by simp [hC']), if_pos hS] at hw
        exact absurd hw (by simp)
      · rw [processRow_main env t row hC' hS] at hw
        dsimp only at hw
        set nt := getTextFromUrl env row.url with hnt
        set ud1 : UpdateData :=
          (if nt ≠ row.reference then { reference := some nt } else {}) with hud1
        split at hw
        · exact absurd hw (by simp)
        · have hu : (updatesSection env row nt (keywordSection env row nt ud1 t).1
              (keywordSection env row nt ud1 t).2.2).1 = u := Option.some.inj hw
          have hfr := keywordSection_frame env row nt ud1 t
          have hf1 := ud1_fields (nt ≠ row.reference) nt
          rw [← hud1] at hf1
          have hgate := updatesSection_isUpdated_gate env row nt
            (keywordSection env row nt ud1 t).1 (keywordSection env row nt ud1 t).2.2
            (by rw [hfr.1]; exact hf1.2.1) (by rw [hu]; exact hiu)
          constructor
          · intro h0
            exact hgate.1 (by rw [h0]; rfl)
          · exact hgate.2

/-! ### C8 -/

/-- C8: a stored reference whose `strip()` is empty (in particular a
non-empty, whitespace-only one) is treated exactly like the empty-string
"no baseline" case: the cycle stages neither `Updates` nor `isUpdated`
and sends no update notification, even when the fetched text differs. -/
theorem C8_blank_reference_no_diff :
    ∀ (env : Env) (t : Nat) (row : Row),
      row.completed = false → pyStrip row.reference = "" →
      (∀ u, (processRow env t row).write = some u →
        u.updates = none ∧ u.isUpdated = none) ∧
      (∀ n ∈ (processRow env t row).notifs, n.isUpdate = false) :=
  fun env t row hC hB => processRow_no_diff env t row hC hB

/-! ### C9 -/

/-- C9: every non-skipped row with a non-empty keyword list stages the
`keywords` and `foundKeyword` fields unconditionally, so a store write
happens on every such cycle — even when nothing matched and the text
equals the stored reference. -/
theorem C9_keyword_fields_always_staged :
    ∀ (env : Env) (t : Nat) (row : Row),
      row.completed = false → row.keywords ≠ [] →
      ∃ u, (processRow env t row).write = some u ∧
        u.keywords.isSome = true ∧ u.foundKeyword.isSome = true := by
  intro env t row hC hne
  have hmapne : row.keywords.map pyLower ≠ [] := by
    intro h0
    exact hne (List.map_eq_nil_iff.mp h0)
  have hS : ¬(row.keywords.map pyLower = [] ∧ row.checkUpdates = false) :=
    fun hcon => hmapne hcon.1
  rw [processRow_main env t row hC hS]
  dsimp only
  set nt := getTextFromUrl env row.url with hnt
  set ud1 : UpdateData :=
    (if nt ≠ row.reference then { reference := some nt } else {}) with hud1
  have hst := keywordSection_staged env row nt ud1 t hmapne
  have hfr := updatesSection_frame env row nt
    (keywordSection env row nt ud1 t).1 (keywordSection env row nt ud1 t).2.2
  refine ⟨(updatesSection env row nt (keywordSection env row nt ud1 t).1
    (keywordSection env row nt ud1 t).2.2).1, ?_, ?_, ?_⟩
  · rw [if_neg]
    rw [isEmpty_false_of_keywords]
    · simp
    · rw [hfr.1]
      exact hst.1
  · rw [hfr.1]
    exact hst.1
  · rw [hfr.2.1]
    exact hst.2

/-! ### C10 -/

/-- C10: when keywords match, the `k`-th matched keyword's `foundAt`
entry carries its own `datetime.now()` reading `clock (t + k)` taken at
the moment of that individual match, while the keyword-found notification
message's "Found at" field carries the reading of the **last** matched
keyword, `clock (t + m - 1)`. -/
theorem C10_per_keyword_timestamps :
    ∀ (env : Env) (t : Nat) (row : Row),
      row.completed = false → row.telegramID ≠ "" →
      matchedKeywords env row ≠ [] →
      ∃ u, (processRow env t row).write = some u ∧
        u.foundKeyword = some (row.foundKeyword ++
          stampAll env.clock t (matchedKeywords env row)) ∧
        ((stampAll env.clock t (matchedKeywords env row)).map
            (fun e => e.foundAt)
          = (List.range (matchedKeywords env row).length).map
              (fun j => env.clock (t + j))) ∧
        (⟨row.telegramID,
          mkKeywordMessage (matchedKeywords env row) row.url
            (env.clock (t + (matchedKeywords env row).length - 1)),
          false⟩ : Notification) ∈ (processRow env t row).notifs := by
  intro env t row hC hT hM
  have hm' : (row.keywords.map pyLower).filter
      (fun kw => containsSub (getTextFromUrl env row.url) kw) ≠ [] := hM
  have hk : row.keywords.map pyLower ≠ [] := by
    intro h0
    rw [h0] at hm'
    exact hm' rfl
  have hS : ¬(row.keywords.map pyLower = [] ∧ row.checkUpdates = false) :=
    fun hcon => hk hcon.1
  rw [processRow_main env t row hC hS]
  dsimp only
  set nt := getTextFromUrl env row.url with hnt
  set ud1 : UpdateData :=
    (if nt ≠ row.reference then { reference := some nt } else {}) with hud1
  have hmk : matchedKeywords env row
      = (row.keywords.map pyLower).filter (fun kw => containsSub nt kw) := by
    unfold matchedKeywords
    rw [hnt]
  have hmnt : (row.keywords.map pyLower).filter
      (fun kw => containsSub nt kw) ≠ [] := by
    rw [← hmk]
    exact hM
  have hks := keywordSection_found env row nt ud1 t hmnt hT
  have hfr := updatesSection_frame env row nt
    (keywordSection env row nt ud1 t).1 (keywordSection env row nt ud1 t).2.2
  refine ⟨(updatesSection env row nt (keywordSection env row nt ud1 t).1
    (keywordSection env row nt ud1 t).2.2).1, ?_, ?_, ?_, ?_⟩
  · rw [if_neg]
    rw [isEmpty_false_of_keywords]
    · simp
    · rw [hfr.1]
      exact hks.2.1
  · rw [hfr.2.1, hks.1, hmk]
  · exact stampAll_map_foundAt env.clock (matchedKeywords env row) t
  · apply List.mem_append_left
    rw [hks.2.2, hmk]
    simp

/-! ### C3 -/

lemma pySliceTo_length (s : String) (n : Nat) :
    (pySliceTo s n).length = min n s.length := by
  show (String.mk (s.data.take n)).length = min n s.length
  rw [String.length_mk, List.length_take]
  rfl

/-- C3 (amended): `format_updates_message` output never exceeds 4096
characters, and whenever its unbounded rendering exceeds 4096 the result
is exactly the first 4000 characters followed by the truncation marker.
(The keyword-found messages and the non-detailed update notice are built
without any truncation and can exceed 4096 — see the counterexample.) -/
theorem C3_formatter_truncation_bound :
    ∀ (url : String) (updates new_detected : List Change),
      (formatUpdatesMessage url updates new_detected).length ≤ 4096 ∧
      (4096 < (formatUpdatesMessageRaw url updates new_detected).length →
        formatUpdatesMessage url updates new_detected =
          pySliceTo (formatUpdatesMessageRaw url updates new_detected) 4000
            ++ truncationMarker) := by
  intro url updates nd
  unfold formatUpdatesMessage
  dsimp only
  constructor
  · split
    case isTrue h =>
      rw [String.length_append, pySliceTo_length]
      have h1 : min 4000 (formatUpdatesMessageRaw url updates nd).length ≤ 4000 :=
        Nat.min_le_left _ _
      have h2 : truncationMarker.length = 39 := by decide
      omega
    case isFalse h =>
      omega
  · intro hgt
    rw [if_pos hgt]

/-- A 5000-character URL, used to overflow the unformatted rendering. -/
def hugeUrlRaw : String := String.mk (List.replicate 5000 'v')

lemma hugeUrlRaw_length : hugeUrlRaw.length = 5000 := by
  show (String.mk (List.replicate 5000 'v')).length = 5000
  rw [String.length_mk, List.length_replicate]

lemma formatRaw_huge_eval :
    formatUpdatesMessageRaw hugeUrlRaw [] [] =
      ("🔄 <b>Website Changes Detected</b>\n\n<b>URL:</b> " ++ hugeUrlRaw)
        ++ "\n\n" := by
  unfold formatUpdatesMessageRaw
  simp [String.append_assoc]

lemma formatRaw_huge_overflow :
    4096 < (formatUpdatesMessageRaw hugeUrlRaw [] []).length := by
  rw [formatRaw_huge_eval, String.length_append, String.length_append,
    hugeUrlRaw_length]
  decide

/-- Witness for the amended C3 at a concrete overflowing input. -/
theorem C3_formatter_truncation_bound_witness :
    4096 < (formatUpdatesMessageRaw hugeUrlRaw [] []).length ∧
    formatUpdatesMessage hugeUrlRaw [] [] =
      pySliceTo (formatUpdatesMessageRaw hugeUrlRaw [] []) 4000
        ++ truncationMarker :=
  ⟨formatRaw_huge_overflow,
   (C3_formatter_truncation_bound hugeUrlRaw [] []).2 formatRaw_huge_overflow⟩

/-- A 5000-character URL routed into a keyword-found message. -/
def hugeUrlKw : String := String.mk (List.replicate 5000 'u')

lemma hugeUrlKw_length : hugeUrlKw.length = 5000 := by
  show (String.mk (List.replicate 5000 'u')).length = 5000
  rw [String.length_mk, List.length_replicate]

/-- A row whose keyword-found notification message overflows. -/
def rowC3 : Row := ⟨3, hugeUrlKw, ["a"], "", [], [], "chat", false, false, true, false⟩

/-- Environment for the C3 counterexample. -/
def envC3 : Env := ⟨fun _ => "a", demoClock, fun _ => false⟩

/-- C3 counterexample: a keyword-found notification (is_update = false)
produced by `process_row` whose message is longer than 4096 characters —
the singular keyword message at lines 221-225 embeds the URL with no
truncation, so "every notification message of either kind is ≤ 4096"
fails on the code. -/
theorem C3_counterexample_keyword_overflow :
    (processRow envC3 0 rowC3).notifs =
      [⟨"chat", mkKeywordMessage ["a"] hugeUrlKw (demoClock 0), false⟩] ∧
    4096 < (mkKeywordMessage ["a"] hugeUrlKw (demoClock 0)).length := by
  constructor
  · rfl
  · unfold mkKeywordMessage
    rw [if_pos (by decide)]
    simp only [String.length_append, hugeUrlKw_length]
    decide

/-! ### C2 -/

/-- C2 (amended): a store-update failure for one row raises out of
`process_row` into `main`'s single catch-all, which ends the cycle: the
failing row's fetch and notifications have already happened, its write is
lost, and no later row of the cycle is processed. -/
theorem C2_store_failure_aborts_cycle :
    ∀ (env : Env) (t : Nat) (row : Row) (rest : List Row),
      (processRow env t row).write.isSome = true →
      env.storeFails row.id = true →
      runRows env t (row :: rest) =
        ⟨(processRow env t row).fetched, (processRow env t row).notifs,
         [], true⟩ := by
  intro env t row rest h1 h2
  unfold runRows
  dsimp only
  rw [if_pos (by rw [h1, h2]; rfl)]

/-- Environment in which the store update fails exactly for row id 1. -/
def envC2 : Env := ⟨fun u => "page text for " ++ u, demoClock, fun i => i == 1⟩

/-- First row of the C2 counterexample cycle (its write fails). -/
def rowC2a : Row := ⟨1, "urlA", ["kw"], "", [], [], "", false, false, true, false⟩

/-- Second row of the C2 counterexample cycle (never reached). -/
def rowC2b : Row := ⟨2, "urlB", ["kw"], "", [], [], "", false, false, true, false⟩

/-- C2 counterexample: with the store failing for the first row, the
cycle fetches only the first URL and aborts — the second resource is not
processed, although it is processed when it runs on its own.  This
refutes "a store write failure for one resource never prevents subsequent
resources from being processed". -/
theorem C2_counterexample_abort :
    (runMain envC2 [rowC2a, rowC2b]).fetched = ["urlA"] ∧
    (runMain envC2 [rowC2a, rowC2b]).aborted = true ∧
    (runMain envC2 [rowC2b]).fetched = ["urlB"] := by
  decide

/-- Witness for the amended C2 at the concrete failing cycle. -/
theorem C2_store_failure_aborts_cycle_witness :
    runRows envC2 0 [rowC2a, rowC2b] =
      ⟨(processRow envC2 0 rowC2a).fetched, (processRow envC2 0 rowC2a).notifs,
       [], true⟩ :=
  C2_store_failure_aborts_cycle envC2 0 rowC2a [rowC2b] (by decide) (by decide)

/-! ### Witnesses for the remaining claims -/

/-- Environment whose page contains the keyword "sale". -/
def envSale : Env := ⟨fun _ => "big SALE today", demoClock, fun _ => false⟩

/-- An already-completed row. -/
def rowDone : Row := ⟨10, "u-done", ["sale"], "", [], [], "chat", false, false, false, true⟩

/-- A row whose single keyword is found with continuation disabled. -/
def rowSale : Row := ⟨11, "u-sale", ["sale"], "", [], [], "chat", false, false, false, false⟩

/-- The update `process_row` stages for `rowSale` in `envSale`. -/
def udSale : UpdateData :=
  ⟨some "big sale today", some [], some [⟨"sale", demoClock 0⟩], some true,
   none, none⟩

/-- Witness for C4: the completed row is skipped outright, and the staged
`completed` for the all-found row is `true` with an emptied pending list
and continuation disabled. -/
theorem C4_completed_monotonic_witness :
    processRow envSale 0 rowDone = ⟨[], [], none, 0⟩ ∧
    (true = true ∧ udSale.keywords = some [] ∧
      rowSale.shouldContinueCheck = false) :=
  ⟨(C4_completed_monotonic envSale 0 rowDone).1 rfl,
   (C4_completed_monotonic envSale 0 rowSale).2 udSale true (by decide) (by decide)⟩

/-- A row none of whose keywords occurs in the fetched text. -/
def rowC6 : Row := ⟨12, "u6", ["sale"], "", [], [], "chat", false, false, true, false⟩

/-- Environment whose page contains no tracked keyword. -/
def envC6 : Env := ⟨fun _ => "nothing here", demoClock, fun _ => false⟩

/-- Witness for C6 at a concrete no-match cycle. -/
theorem C6_no_keyword_match_witness :
    ∃ u, (processRow envC6 0 rowC6).write = some u ∧
      u.keywords = some rowC6.keywords ∧
      u.foundKeyword = some rowC6.foundKeyword ∧
      (∀ n ∈ (processRow envC6 0 rowC6).notifs, n.isUpdate = true) :=
  C6_no_keyword_match_leaves_state envC6 0 rowC6 rfl (by decide) (by decide)
    (by decide)

/-- A diff-enabled row with an empty stored reference. -/
def rowC7a : Row := ⟨13, "u7", [], "", [], [], "chat", true, true, true, false⟩

/-- Environment delivering fresh content for the no-baseline row. -/
def envC7a : Env := ⟨fun _ => "fresh content.", demoClock, fun _ => false⟩

/-- A diff-enabled row with a non-blank reference and changed content. -/
def rowC7b : Row := ⟨14, "u7b", [], "hello world.", [], [], "", false, true, true, false⟩

/-- Environment whose fetch shortens the page to "hello". -/
def envC7b : Env := ⟨fun _ => "hello", demoClock, fun _ => false⟩

/-- The update staged for `rowC7b` (the word diff reports additions only,
and here nothing was added, so `Updates` stays empty while `isUpdated`
is still staged). -/
def udC7b : UpdateData := ⟨some "hello", none, none, none, some true, some []⟩

/-- Witness for C7: no-baseline row stages no diff fields; and a cycle
that did stage `isUpdated` had a non-empty reference differing from the
fetched text. -/
theorem C7_empty_reference_witness :
    ((∀ u, (processRow envC7a 0 rowC7a).write = some u →
        u.updates = none ∧ u.isUpdated = none) ∧
     (∀ n ∈ (processRow envC7a 0 rowC7a).notifs, n.isUpdate = false)) ∧
    (rowC7b.reference ≠ "" ∧
      getTextFromUrl envC7b rowC7b.url ≠ rowC7b.reference) :=
  ⟨C7_empty_reference_no_changes.1 envC7a 0 rowC7a rfl rfl rfl,
   C7_empty_reference_no_changes.2 envC7b 0 rowC7b udC7b (by decide) (by decide)⟩

/-- A diff-enabled row whose stored reference is whitespace-only. -/
def rowC8 : Row := ⟨15, "u8", [], " \t\x0c ", [], [], "chat", true, true, true, false⟩

/-- Environment delivering content that differs from the blank baseline. -/
def envC8 : Env := ⟨fun _ => "brand new text.", demoClock, fun _ => false⟩

/-- Witness for C8 at a concrete whitespace-only-reference cycle. -/
theorem C8_blank_reference_witness :
    (∀ u, (processRow envC8 0 rowC8).write = some u →
      u.updates = none ∧ u.isUpdated = none) ∧
    (∀ n ∈ (processRow envC8 0 rowC8).notifs, n.isUpdate = false) :=
  C8_blank_reference_no_diff envC8 0 rowC8 rfl (by decide)

/-- A row with a pending keyword that the page does not contain, whose
fetched text equals the stored reference. -/
def rowC9 : Row := ⟨16, "u9", ["absent"], "steady state text", [], [], "",
  false, false, true, false⟩

/-- Environment returning exactly the stored reference text. -/
def envC9 : Env := ⟨fun _ => "steady state text", demoClock, fun _ => false⟩

/-- Witness for C9: even with no match and unchanged text, the keyword
fields are staged and a write happens. -/
theorem C9_keyword_fields_witness :
    ∃ u, (processRow envC9 0 rowC9).write = some u ∧
      u.keywords.isSome = true ∧ u.foundKeyword.isSome = true :=
  C9_keyword_fields_always_staged envC9 0 rowC9 rfl (by decide)

/-- A row with two pending keywords, both present in the page. -/
def rowC10 : Row := ⟨17, "u10", ["alpha", "beta"], "", [], [], "chat",
  false, false, true, false⟩

/-- Environment whose page contains both tracked keywords. -/
def envC10 : Env := ⟨fun _ => "alpha then beta appear", demoClock, fun _ => false⟩

/-- Witness for C10 at a concrete two-match cycle. -/
theorem C10_per_keyword_timestamps_witness :
    ∃ u, (processRow envC10 0 rowC10).write = some u ∧
      u.foundKeyword = some (rowC10.foundKeyword ++
        stampAll envC10.clock 0 (matchedKeywords envC10 rowC10)) ∧
      ((stampAll envC10.clock 0 (matchedKeywords envC10 rowC10)).map
          (fun e => e.foundAt)
        = (List.range (matchedKeywords envC10 rowC10).length).map
            (fun j => envC10.clock (0 + j))) ∧
      (⟨rowC10.telegramID,
        mkKeywordMessage (matchedKeywords envC10 rowC10) rowC10.url
          (envC10.clock (0 + (matchedKeywords envC10 rowC10).length - 1)),
        false⟩ : Notification) ∈ (processRow envC10 0 rowC10).notifs :=
  C10_per_keyword_timestamps envC10 0 rowC10 rfl (by decide) (by decide)

end Ezynotify


